import Mathlib

/-!
Shallow embedding of the workload computation engine of `pulse.py`
(the `pulse-throw` package).

Modelling conventions:

* A Python `datetime.date` is represented by its ordinal day number, an
  integer.  Subtracting a `timedelta(days = k)` is integer
  subtraction, and `(end - start).days` is the integer `end - start`.
  The claims under study only concern snapshot records whose `date`
  strings are valid ISO-8601, so each record carries its parsed date.
* Python floats are represented by rational numbers.  Every formula the
  claims mention is a plain arithmetic expression evaluated identically
  on both sides, so the rational model is faithful for them.
* A Python `dict` built by a comprehension is modelled operationally as
  a list of key/value pairs built by `dictInsert`, which updates the
  value in place when the key is present (keeping insertion order) and
  appends otherwise — exactly the semantics of repeated `d[k] = v`.
* A Python function that can raise is modelled in `Except PyError`;
  `PyError.rangeError` is the `ValueError` raised on `start > end` and
  `PyError.minEmptyError` the `ValueError` raised by `min([])`.
-/

namespace PulseThrow

/-- The fields of a daily snapshot record consumed by the workload engine:
the parsed `date` plus the `dailyWorkload` and `normDailyWorkload` scalars. -/
structure Snapshot where
  date : Int
  dailyWorkload : ℚ
  normDailyWorkload : ℚ
deriving DecidableEq

/-- The fields of an individual throw event record consumed by the filter
and summation helpers (`tag` may be absent or `None`, hence `Option`). -/
structure ThrowEvent where
  tag : Option String
  simulated : Option Bool
  highEffort : Option Bool
  workload : ℚ
  normalizedWorkload : ℚ
deriving DecidableEq

/-- Kinds of `ValueError` the workload functions can raise. -/
inductive PyError where
  | rangeError : PyError
  | minEmptyError : PyError
deriving DecidableEq

deriving instance DecidableEq for Except

/-- Module constant `ACUTE_LENGTH = 9`. -/
def ACUTE_LENGTH : Nat := 9

/-- Module constant `ACUTE_WEIGHTS = [1.3, 1.225, 1.15, 1.075, 1.0, 0.925,
0.85, 0.775, 0.7]`, as exact rationals. -/
def ACUTE_WEIGHTS : List ℚ :=
  [13/10, 49/40, 23/20, 43/40, 1, 37/40, 17/20, 31/40, 7/10]

/-- Module constant `CHRONIC_LENGTH = 28`. -/
def CHRONIC_LENGTH : Nat := 28

/-- Python dictionary assignment `d[k] = v` on an insertion-ordered
key/value list: overwrite in place when `k` is already a key, append
otherwise. -/
def dictInsert (m : List (Int × ℚ)) (k : Int) (v : ℚ) : List (Int × ℚ) :=
  if m.any (fun p => p.1 == k) then
    m.map (fun p => if p.1 == k then (k, v) else p)
  else
    m ++ [(k, v)]

/-- Python `d[k]` as an `Option`: the value at the first (hence, under the
no-duplicate-keys invariant, only) occurrence of key `k`. -/
def dictFind? (m : List (Int × ℚ)) (k : Int) : Option ℚ :=
  (m.find? (fun p => p.1 == k)).map Prod.snd

/-- Python `d.get(k, default)`. -/
def dictGet (m : List (Int × ℚ)) (k : Int) (default : ℚ) : ℚ :=
  (dictFind? m k).getD default

/-- Python `d.keys()` in insertion order. -/
def dictKeys (m : List (Int × ℚ)) : List Int :=
  m.map Prod.fst

/-- The scalar chosen from a snapshot record:
`snapshot["normDailyWorkload" if normalized else "dailyWorkload"]`. -/
def snapshotValue (normalized : Bool) (s : Snapshot) : ℚ :=
  if normalized then s.normDailyWorkload else s.dailyWorkload

/-- Embedding of `_get_workloads_by_date`: the dict comprehension
`{date.fromisoformat(s["date"]): s[chosen] for s in snapshots}`,
built left to right so a duplicated date keeps the later value. -/
def _get_workloads_by_date (snapshots : List Snapshot) (normalized : Bool) :
    List (Int × ℚ) :=
  snapshots.foldl (fun m s => dictInsert m s.date (snapshotValue normalized s)) []

/-- Embedding of `_get_acute_divisor`:
`return ACUTE_LENGTH if timespan >= 6 else timespan + 3`. -/
def _get_acute_divisor (timespan : Int) : Int :=
  if timespan ≥ 6 then (ACUTE_LENGTH : Int) else timespan + 3

/-- Embedding of `_get_chronic_divisor`:
`return CHRONIC_LENGTH if timespan >= 23 else timespan + 5`. -/
def _get_chronic_divisor (timespan : Int) : Int :=
  if timespan ≥ 23 then (CHRONIC_LENGTH : Int) else timespan + 5

/-- Embedding of `compute_acute_workload`.  `min`/`max` over the keys of an
empty dict raise `ValueError`; with `start = min(keys)` and `end` the
supplied date (else `max(keys)`), `start > end` raises `ValueError`, and
otherwise the weighted window sum divided by the acute divisor is
returned. -/
def compute_acute_workload (snapshots : List Snapshot) (end_date : Option Int)
    (normalized : Bool) : Except PyError ℚ :=
  match (dictKeys (_get_workloads_by_date snapshots normalized)).min?,
        (dictKeys (_get_workloads_by_date snapshots normalized)).max? with
  | some start, some maxKey =>
    if start > end_date.getD maxKey then
      .error PyError.rangeError
    else
      .ok ((((List.range ACUTE_LENGTH).map fun (offset : Nat) =>
          dictGet (_get_workloads_by_date snapshots normalized)
            (end_date.getD maxKey - (offset : Int)) 0 * ACUTE_WEIGHTS.getD offset 0).sum)
        / (_get_acute_divisor (end_date.getD maxKey - start) : ℚ))
  | _, _ => .error PyError.minEmptyError

/-- Embedding of `compute_chronic_workload`: same structure as the acute
computation but a flat sum over a 28-day window and the chronic divisor. -/
def compute_chronic_workload (snapshots : List Snapshot) (end_date : Option Int)
    (normalized : Bool) : Except PyError ℚ :=
  match (dictKeys (_get_workloads_by_date snapshots normalized)).min?,
        (dictKeys (_get_workloads_by_date snapshots normalized)).max? with
  | some start, some maxKey =>
    if start > end_date.getD maxKey then
      .error PyError.rangeError
    else
      .ok ((((List.range CHRONIC_LENGTH).map fun (offset : Nat) =>
          dictGet (_get_workloads_by_date snapshots normalized)
            (end_date.getD maxKey - (offset : Int)) 0).sum)
        / (_get_chronic_divisor (end_date.getD maxKey - start) : ℚ))
  | _, _ => .error PyError.minEmptyError

/-- Embedding of `compute_acr`: compute the chronic workload first
(propagating its error), return `0.0` when it is `0.0`, and otherwise
the acute workload (propagating its error) divided by it. -/
def compute_acr (snapshots : List Snapshot) (end_date : Option Int)
    (normalized : Bool) : Except PyError ℚ :=
  match compute_chronic_workload snapshots end_date normalized with
  | .error err => .error err
  | .ok chronic_workload =>
    if chronic_workload = 0 then
      .ok 0
    else
      match compute_acute_workload snapshots end_date normalized with
      | .error err => .error err
      | .ok acute_workload => .ok (acute_workload / chronic_workload)

/-- The `tags` argument of `filter_by_tag`: a single tag string or a list
of tag strings. -/
inductive TagArg where
  | single : String → TagArg
  | multi : List String → TagArg

/-- The `if isinstance(tags, str): tags = [tags]` normalization. -/
def TagArg.toList : TagArg → List String
  | .single t => [t]
  | .multi ts => ts

/-- Python membership test `event.get("tag") in tags` for a tag that may
be `None` against a list of strings. -/
def tagMem (t : Option String) (ts : List String) : Bool :=
  match t with
  | some s => ts.contains s
  | none => false

/-- Embedding of `filter_by_tag`: keep events whose tag is in `tags` when
`blacklist` is false, and events whose tag is not in `tags` when it is
true. -/
def filter_by_tag (events : List ThrowEvent) (tags : TagArg)
    (blacklist : Bool) : List ThrowEvent :=
  if blacklist then
    events.filter fun event => !(tagMem event.tag tags.toList)
  else
    events.filter fun event => tagMem event.tag tags.toList

/-! ### Library facts about `List.min?` and `List.max?` over the integers -/

theorem intMin?_eq_some_iff {l : List Int} {a : Int} :
    l.min? = some a ↔ a ∈ l ∧ ∀ b ∈ l, a ≤ b := by
  haveI : Std.Antisymm ((· : Int) ≤ ·) := ⟨fun {x y} h h' => le_antisymm h h'⟩
  exact List.min?_eq_some_iff (fun x => le_refl x) (fun x y => min_choice x y)
    (fun x y z => le_min_iff)

theorem intMax?_eq_some_iff {l : List Int} {a : Int} :
    l.max? = some a ↔ a ∈ l ∧ ∀ b ∈ l, b ≤ a := by
  haveI : Std.Antisymm ((· : Int) ≤ ·) := ⟨fun {x y} h h' => le_antisymm h h'⟩
  exact List.max?_eq_some_iff (fun x => le_refl x) (fun x y => max_choice x y)
    (fun x y z => max_le_iff)

/-! ### Dictionary lemmas -/

theorem dictKeys_dictInsert (m : List (Int × ℚ)) (k : Int) (v : ℚ) :
    dictKeys (dictInsert m k v) =
      if m.any (fun p => p.1 == k) then dictKeys m else dictKeys m ++ [k] := by
  unfold dictInsert dictKeys
  split
  · rw [List.map_map]
    refine List.map_congr_left fun p _ => ?_
    by_cases h : p.1 = k
    · simp [h]
    · simp [h]
  · simp

theorem mem_dictKeys_of_any {m : List (Int × ℚ)} {k : Int}
    (h : m.any (fun p => p.1 == k) = true) : k ∈ dictKeys m := by
  rw [List.any_eq_true] at h
  obtain ⟨p, hp, hpk⟩ := h
  rw [beq_iff_eq] at hpk
  exact hpk ▸ List.mem_map_of_mem Prod.fst hp

theorem not_mem_dictKeys_of_not_any {m : List (Int × ℚ)} {k : Int}
    (h : ¬ m.any (fun p => p.1 == k) = true) : k ∉ dictKeys m := by
  intro hk
  apply h
  rw [List.any_eq_true]
  obtain ⟨p, hp, hpk⟩ := List.mem_map.mp hk
  exact ⟨p, hp, by rw [beq_iff_eq, hpk]⟩

theorem mem_dictKeys_dictInsert {m : List (Int × ℚ)} {k k' : Int} {v : ℚ} :
    k' ∈ dictKeys (dictInsert m k v) ↔ k' ∈ dictKeys m ∨ k' = k := by
  rw [dictKeys_dictInsert]
  split
  case isTrue h =>
    constructor
    · exact Or.inl
    · rintro (hk | rfl)
      · exact hk
      · exact mem_dictKeys_of_any h
  case isFalse h => simp

theorem nodup_dictKeys_dictInsert {m : List (Int × ℚ)} {k : Int} {v : ℚ}
    (h : (dictKeys m).Nodup) : (dictKeys (dictInsert m k v)).Nodup := by
  rw [dictKeys_dictInsert]
  split
  case isTrue _ => exact h
  case isFalse hany =>
    rw [List.nodup_append]
    refine ⟨h, List.nodup_singleton k, fun a ha hak => ?_⟩
    rw [List.mem_singleton] at hak
    exact not_mem_dictKeys_of_not_any hany (hak ▸ ha)

theorem find?_map_overwrite {m : List (Int × ℚ)} {k : Int} {v : ℚ}
    (h : m.any (fun p => p.1 == k) = true) :
    (m.map fun p => if p.1 == k then (k, v) else p).find? (fun p => p.1 == k) =
      some (k, v) := by
  induction m with
  | nil => simp at h
  | cons p rest ih =>
    by_cases hp : p.1 = k
    · simp [hp]
    · have hrest : rest.any (fun p => p.1 == k) = true := by
        simpa [hp] using h
      simpa [hp] using ih hrest

theorem find?_map_overwrite_ne {m : List (Int × ℚ)} {k k' : Int} {v : ℚ}
    (hne : k' ≠ k) :
    (m.map fun p => if p.1 == k then (k, v) else p).find? (fun p => p.1 == k') =
      m.find? (fun p => p.1 == k') := by
  induction m with
  | nil => rfl
  | cons p rest ih =>
    by_cases hp : p.1 = k
    · have hfp : (if (p.1 == k) = true then (k, v) else p) = (k, v) := by simp [hp]
      rw [List.map_cons, hfp,
        List.find?_cons_of_neg _ (by simp [(Ne.symm hne : k ≠ k')]),
        List.find?_cons_of_neg _ (by simp [hp, (Ne.symm hne : k ≠ k')])]
      exact ih
    · have hfp : (if (p.1 == k) = true then (k, v) else p) = p := by simp [hp]
      by_cases hq : p.1 = k'
      · rw [List.map_cons, hfp,
          List.find?_cons_of_pos _ (by simp [hq]),
          List.find?_cons_of_pos _ (by simp [hq])]
      · rw [List.map_cons, hfp,
          List.find?_cons_of_neg _ (by simp [hq]),
          List.find?_cons_of_neg _ (by simp [hq])]
        exact ih

theorem dictFind?_dictInsert_self (m : List (Int × ℚ)) (k : Int) (v : ℚ) :
    dictFind? (dictInsert m k v) k = some v := by
  unfold dictInsert dictFind?
  split
  case isTrue h =>
    rw [find?_map_overwrite h]
    rfl
  case isFalse h =>
    rw [List.find?_append]
    have hnone : m.find? (fun p => p.1 == k) = none := by
      rw [List.find?_eq_none]
      intro p hp hpk
      exact h (List.any_eq_true.mpr ⟨p, hp, hpk⟩)
    simp [hnone]

theorem dictFind?_dictInsert_ne (m : List (Int × ℚ)) {k k' : Int} (v : ℚ)
    (hne : k' ≠ k) :
    dictFind? (dictInsert m k v) k' = dictFind? m k' := by
  unfold dictInsert dictFind?
  split
  · rw [find?_map_overwrite_ne hne]
  · rw [List.find?_append]
    have : ([(k, v)] : List (Int × ℚ)).find? (fun p => p.1 == k') = none := by
      simp [Ne.symm hne]
    cases hm : m.find? (fun p => p.1 == k') <;> simp [this, hm]

theorem dictFind?_eq_none_of_not_mem {m : List (Int × ℚ)} {k : Int}
    (h : k ∉ dictKeys m) : dictFind? m k = none := by
  unfold dictFind?
  have hnone : m.find? (fun p => p.1 == k) = none := by
    rw [List.find?_eq_none]
    intro p hp hpk
    rw [beq_iff_eq] at hpk
    exact h (hpk ▸ List.mem_map_of_mem Prod.fst hp)
  rw [hnone]
  rfl

/-! ### Structure of the date-indexed workload map -/

theorem _get_workloads_by_date_nil (n : Bool) :
    _get_workloads_by_date [] n = [] := rfl

theorem _get_workloads_by_date_append (s : List Snapshot) (t : Snapshot) (n : Bool) :
    _get_workloads_by_date (s ++ [t]) n =
      dictInsert (_get_workloads_by_date s n) t.date (snapshotValue n t) := by
  unfold _get_workloads_by_date
  rw [List.foldl_append]
  rfl

theorem mem_dictKeys_workloads {s : List Snapshot} {n : Bool} {d : Int} :
    d ∈ dictKeys (_get_workloads_by_date s n) ↔ d ∈ s.map Snapshot.date := by
  induction s using List.reverseRecOn with
  | nil => simp [_get_workloads_by_date_nil, dictKeys]
  | append_singleton s t ih =>
    rw [_get_workloads_by_date_append, mem_dictKeys_dictInsert, ih]
    simp

theorem nodup_dictKeys_workloads (s : List Snapshot) (n : Bool) :
    (dictKeys (_get_workloads_by_date s n)).Nodup := by
  induction s using List.reverseRecOn with
  | nil => simp [_get_workloads_by_date_nil, dictKeys]
  | append_singleton s t ih =>
    rw [_get_workloads_by_date_append]
    exact nodup_dictKeys_dictInsert ih

theorem dictFind?_workloads (s : List Snapshot) (n : Bool) (d : Int) :
    dictFind? (_get_workloads_by_date s n) d =
      (s.reverse.find? (fun t => t.date == d)).map (snapshotValue n) := by
  induction s using List.reverseRecOn with
  | nil => rfl
  | append_singleton s t ih =>
    rw [_get_workloads_by_date_append, List.reverse_append]
    by_cases hd : t.date = d
    · rw [List.reverse_singleton, List.singleton_append,
        List.find?_cons_of_pos _ (by simp [hd]), hd,
        dictFind?_dictInsert_self]
      rfl
    · rw [List.reverse_singleton, List.singleton_append,
        List.find?_cons_of_neg _ (by simp [hd]),
        dictFind?_dictInsert_ne _ _ (fun hc => hd hc.symm)]
      exact ih

theorem min?_dictKeys_workloads (s : List Snapshot) (n : Bool) :
    (dictKeys (_get_workloads_by_date s n)).min? = (s.map Snapshot.date).min? := by
  cases hs : (s.map Snapshot.date).min? with
  | none =>
    rw [List.min?_eq_none_iff] at hs ⊢
    rcases s with _ | ⟨t, rest⟩
    · rfl
    · simp at hs
  | some a =>
    rw [intMin?_eq_some_iff] at hs ⊢
    exact ⟨mem_dictKeys_workloads.mpr hs.1,
      fun b hb => hs.2 b (mem_dictKeys_workloads.mp hb)⟩

theorem max?_dictKeys_workloads (s : List Snapshot) (n : Bool) :
    (dictKeys (_get_workloads_by_date s n)).max? = (s.map Snapshot.date).max? := by
  cases hs : (s.map Snapshot.date).max? with
  | none =>
    rw [List.max?_eq_none_iff] at hs ⊢
    rcases s with _ | ⟨t, rest⟩
    · rfl
    · simp at hs
  | some a =>
    rw [intMax?_eq_some_iff] at hs ⊢
    exact ⟨mem_dictKeys_workloads.mpr hs.1,
      fun b hb => hs.2 b (mem_dictKeys_workloads.mp hb)⟩

/-! ### Characterizations of the three workload computations -/

theorem compute_acute_workload_eq (s : List Snapshot) (ed : Option Int) (n : Bool)
    {start mx : Int}
    (hmin : (s.map Snapshot.date).min? = some start)
    (hmax : (s.map Snapshot.date).max? = some mx) :
    compute_acute_workload s ed n =
      if start > ed.getD mx then Except.error PyError.rangeError
      else Except.ok ((((List.range ACUTE_LENGTH).map fun (offset : Nat) =>
          dictGet (_get_workloads_by_date s n) (ed.getD mx - (offset : Int)) 0
            * ACUTE_WEIGHTS.getD offset 0).sum)
        / (_get_acute_divisor (ed.getD mx - start) : ℚ)) := by
  unfold compute_acute_workload
  rw [min?_dictKeys_workloads, max?_dictKeys_workloads, hmin, hmax]

theorem compute_chronic_workload_eq (s : List Snapshot) (ed : Option Int) (n : Bool)
    {start mx : Int}
    (hmin : (s.map Snapshot.date).min? = some start)
    (hmax : (s.map Snapshot.date).max? = some mx) :
    compute_chronic_workload s ed n =
      if start > ed.getD mx then Except.error PyError.rangeError
      else Except.ok ((((List.range CHRONIC_LENGTH).map fun (offset : Nat) =>
          dictGet (_get_workloads_by_date s n) (ed.getD mx - (offset : Int)) 0).sum)
        / (_get_chronic_divisor (ed.getD mx - start) : ℚ)) := by
  unfold compute_chronic_workload
  rw [min?_dictKeys_workloads, max?_dictKeys_workloads, hmin, hmax]

theorem snapshots_ne_nil_of_chronic_ok {s : List Snapshot} {ed : Option Int}
    {n : Bool} {c : ℚ} (hc : compute_chronic_workload s ed n = Except.ok c) :
    s ≠ [] := by
  rintro rfl
  exact Except.noConfusion hc

theorem exists_min?_max?_of_ne_nil {s : List Snapshot} (hs : s ≠ []) :
    ∃ start mx : Int, (s.map Snapshot.date).min? = some start ∧
      (s.map Snapshot.date).max? = some mx := by
  cases hmin : (s.map Snapshot.date).min? with
  | none =>
    rw [List.min?_eq_none_iff, List.map_eq_nil_iff] at hmin
    exact absurd hmin hs
  | some a =>
    cases hmax : (s.map Snapshot.date).max? with
    | none =>
      rw [List.max?_eq_none_iff, List.map_eq_nil_iff] at hmax
      exact absurd hmax hs
    | some b => exact ⟨a, b, rfl, rfl⟩

/-! ### Spec-side transcription of the workload formulas (for refinement) -/

/-- Transcription of the spec wording for the acute weights: a strictly
decreasing linear ramp from 1.3 to 0.7 in steps of 0.075, indexed by the
offset in days before the reference date. -/
def specAcuteWeight (offset : Nat) : ℚ := 13/10 - 3/40 * (offset : ℚ)

/-- Transcription of the spec formula for acute workload: the sum over
offsets 0..8 of the workload-map value at (end − offset) days times the
offset weight, divided by the acute divisor of the span. -/
def specAcuteFormula (W : List (Int × ℚ)) (e : Int) (span : Int) : ℚ :=
  (∑ offset ∈ Finset.range 9,
      dictGet W (e - (offset : Int)) 0 * specAcuteWeight offset)
    / (_get_acute_divisor span : ℚ)

/-- Transcription of the spec formula for chronic workload: the flat sum
over offsets 0..27 of the workload-map value at (end − offset) days,
divided by the chronic divisor of the span. -/
def specChronicFormula (W : List (Int × ℚ)) (e : Int) (span : Int) : ℚ :=
  (∑ offset ∈ Finset.range 28, dictGet W (e - (offset : Int)) 0)
    / (_get_chronic_divisor span : ℚ)

theorem acute_weights_eq_ramp : ∀ i < 9, ACUTE_WEIGHTS.getD i 0 = specAcuteWeight i := by
  intro i hi
  interval_cases i <;> norm_num [ACUTE_WEIGHTS, specAcuteWeight]

theorem list_range_map_sum (f : ℕ → ℚ) (n : ℕ) :
    ((List.range n).map f).sum = ∑ i ∈ Finset.range n, f i := by
  induction n with
  | zero => rfl
  | succ n ih =>
    rw [List.range_succ, List.map_append, List.sum_append, Finset.sum_range_succ, ih]
    simp

theorem dictGet_workloads_far {s : List Snapshot} {n : Bool} {e : Int}
    (hfar : ∀ d ∈ s.map Snapshot.date, d + 8 < e)
    (offset : Nat) (hoff : offset < 9) :
    dictGet (_get_workloads_by_date s n) (e - (offset : Int)) 0 = 0 := by
  have hnot : (e - (offset : Int)) ∉ s.map Snapshot.date := by
    intro hmem
    have := hfar _ hmem
    omega
  rw [dictGet, dictFind?_eq_none_of_not_mem (fun hk => hnot (mem_dictKeys_workloads.mp hk))]
  rfl

theorem acute_far_future_ok_zero (s : List Snapshot) (n : Bool) (e : Int)
    (hs : s ≠ []) (hfar : ∀ d ∈ s.map Snapshot.date, d + 8 < e) :
    compute_acute_workload s (some e) n = Except.ok 0 := by
  obtain ⟨start, mx, hmin, hmax⟩ := exists_min?_max?_of_ne_nil hs
  have hstart_mem : start ∈ s.map Snapshot.date := (intMin?_eq_some_iff.mp hmin).1
  have hle : start ≤ (some e : Option Int).getD mx := by
    have := hfar _ hstart_mem
    simp only [Option.getD_some]
    omega
  rw [compute_acute_workload_eq s (some e) n hmin hmax, if_neg (not_lt.mpr hle)]
  have hsum : ((List.range ACUTE_LENGTH).map fun (offset : Nat) =>
      dictGet (_get_workloads_by_date s n)
        ((some e : Option Int).getD mx - (offset : Int)) 0
        * ACUTE_WEIGHTS.getD offset 0).sum = 0 := by
    apply List.sum_eq_zero
    intro x hx
    rw [List.mem_map] at hx
    obtain ⟨i, hi, rfl⟩ := hx
    rw [List.mem_range] at hi
    rw [Option.getD_some, dictGet_workloads_far hfar i hi, zero_mul]
  rw [hsum, zero_div]

/-! ### The claims -/

/-- Claim C3: for every non-negative integer timespan, the acute divisor
equals timespan + 3 when the timespan is below 6 and equals 9 from 6 on,
and the chronic divisor equals timespan + 5 below 23 and 28 from 23 on. -/
theorem C3_divisor_table (t : Int) (ht : 0 ≤ t) :
    (t < 6 → _get_acute_divisor t = t + 3) ∧ (6 ≤ t → _get_acute_divisor t = 9) ∧
    (t < 23 → _get_chronic_divisor t = t + 5) ∧ (23 ≤ t → _get_chronic_divisor t = 28) := by
  unfold _get_acute_divisor _get_chronic_divisor ACUTE_LENGTH CHRONIC_LENGTH
  refine ⟨fun h => ?_, fun h => ?_, fun h => ?_, fun h => ?_⟩
  · rw [if_neg (by omega)]
  · rw [if_pos h]
    rfl
  · rw [if_neg (by omega)]
  · rw [if_pos h]
    rfl

/-- Witness for C3 at the concrete timespan 7. -/
theorem C3_witness :
    (0 : Int) ≤ 7 ∧
    (((7 : Int) < 6 → _get_acute_divisor 7 = 7 + 3) ∧
     ((6 : Int) ≤ 7 → _get_acute_divisor 7 = 9) ∧
     ((7 : Int) < 23 → _get_chronic_divisor 7 = 7 + 5) ∧
     ((23 : Int) ≤ 7 → _get_chronic_divisor 7 = 28)) :=
  ⟨by decide, C3_divisor_table 7 (by decide)⟩

/-- Claim C7: for every event list and every tag argument, the whitelist
filter and the blacklist filter are disjoint and together are a
permutation of the input list, so each event goes to exactly one of the
two results. -/
theorem C7_filter_by_tag_partition (events : List ThrowEvent) (tags : TagArg) :
    (∀ e, ¬ (e ∈ filter_by_tag events tags false ∧ e ∈ filter_by_tag events tags true)) ∧
    (filter_by_tag events tags false ++ filter_by_tag events tags true).Perm events := by
  have hfw : filter_by_tag events tags false =
      events.filter (fun event => tagMem event.tag tags.toList) := rfl
  have hfb : filter_by_tag events tags true =
      events.filter (fun event => !(tagMem event.tag tags.toList)) := rfl
  rw [hfw, hfb]
  constructor
  · rintro e ⟨hw, hb⟩
    rw [List.mem_filter] at hw hb
    rw [hw.2] at hb
    exact absurd hb.2 (by simp)
  · exact List.filter_append_perm _ events

/-- Claim C8: on the empty snapshot list, all three workload computations
fail with the error raised by taking the minimum of an empty key set,
rather than returning a value. -/
theorem C8_empty_snapshots_error (ed : Option Int) (n : Bool) :
    compute_acute_workload [] ed n = Except.error PyError.minEmptyError ∧
    compute_chronic_workload [] ed n = Except.error PyError.minEmptyError ∧
    compute_acr [] ed n = Except.error PyError.minEmptyError :=
  ⟨rfl, rfl, rfl⟩

/-- Claim C9: when the earliest snapshot date is at most the reference
date, the timespan is a non-negative integer, the acute divisor is at
least 3 and the chronic divisor at least 5; in particular neither
divisor used by the workload computations is zero. -/
theorem C9_divisors_positive (s : List Snapshot) (start e : Int)
    (hmin : (s.map Snapshot.date).min? = some start) (hle : start ≤ e) :
    0 ≤ e - start ∧
    3 ≤ _get_acute_divisor (e - start) ∧
    5 ≤ _get_chronic_divisor (e - start) ∧
    ((_get_acute_divisor (e - start) : ℚ) ≠ 0) ∧
    ((_get_chronic_divisor (e - start) : ℚ) ≠ 0) := by
  have h2 : 3 ≤ _get_acute_divisor (e - start) := by
    unfold _get_acute_divisor ACUTE_LENGTH
    split <;> omega
  have h3 : 5 ≤ _get_chronic_divisor (e - start) := by
    unfold _get_chronic_divisor CHRONIC_LENGTH
    split <;> omega
  refine ⟨by omega, h2, h3, ?_, ?_⟩
  · rw [Ne, Int.cast_eq_zero]
    omega
  · rw [Ne, Int.cast_eq_zero]
    omega

/-- Witness for C9 at a single snapshot on day 0 and reference date 2. -/
theorem C9_witness :
    (([⟨0, 0, 0⟩] : List Snapshot).map Snapshot.date).min? = some 0 ∧
    (0 : Int) ≤ 2 ∧
    (0 ≤ (2 : Int) - 0 ∧
     3 ≤ _get_acute_divisor ((2 : Int) - 0) ∧
     5 ≤ _get_chronic_divisor ((2 : Int) - 0) ∧
     ((_get_acute_divisor ((2 : Int) - 0) : ℚ) ≠ 0) ∧
     ((_get_chronic_divisor ((2 : Int) - 0) : ℚ) ≠ 0)) :=
  ⟨by decide, by decide, C9_divisors_positive [⟨0, 0, 0⟩] 0 2 (by decide) (by decide)⟩

/-- Claim C10: the keys of the map built by the snapshot indexer are
exactly the distinct parsed dates of the input records (no duplicate
keys), and each date maps to the chosen value of the record occurring
last in the input with that date. -/
theorem C10_workloads_by_date_invariant (s : List Snapshot) (n : Bool) :
    (dictKeys (_get_workloads_by_date s n)).Nodup ∧
    (∀ d : Int, d ∈ dictKeys (_get_workloads_by_date s n) ↔ d ∈ s.map Snapshot.date) ∧
    (∀ d : Int, dictFind? (_get_workloads_by_date s n) d =
      (s.reverse.find? (fun t => t.date == d)).map (snapshotValue n)) :=
  ⟨nodup_dictKeys_workloads s n, fun _ => mem_dictKeys_workloads,
    fun d => dictFind?_workloads s n d⟩

theorem chronic_far_future_ok_zero (s : List Snapshot) (n : Bool) (e : Int)
    (hs : s ≠ []) (hfar : ∀ d ∈ s.map Snapshot.date, d + 27 < e) :
    compute_chronic_workload s (some e) n = Except.ok 0 := by
  obtain ⟨start, mx, hmin, hmax⟩ := exists_min?_max?_of_ne_nil hs
  have hstart_mem : start ∈ s.map Snapshot.date := (intMin?_eq_some_iff.mp hmin).1
  have hle : start ≤ (some e : Option Int).getD mx := by
    have := hfar _ hstart_mem
    simp only [Option.getD_some]
    omega
  rw [compute_chronic_workload_eq s (some e) n hmin hmax, if_neg (not_lt.mpr hle)]
  have hsum : ((List.range CHRONIC_LENGTH).map fun (offset : Nat) =>
      dictGet (_get_workloads_by_date s n)
        ((some e : Option Int).getD mx - (offset : Int)) 0).sum = 0 := by
    apply List.sum_eq_zero
    intro x hx
    rw [List.mem_map] at hx
    obtain ⟨i, hi, rfl⟩ := hx
    rw [List.mem_range] at hi
    have hnot : (e - (i : Int)) ∉ s.map Snapshot.date := by
      intro hmem
      have h1 := hfar _ hmem
      have h2 : i < CHRONIC_LENGTH := hi
      have h3 : i < 28 := h2
      omega
    rw [Option.getD_some, dictGet,
      dictFind?_eq_none_of_not_mem (fun hk => hnot (mem_dictKeys_workloads.mp hk))]
    rfl
  rw [hsum, zero_div]

theorem compute_acr_error (s : List Snapshot) (ed : Option Int) (n : Bool)
    {err : PyError}
    (hch : compute_chronic_workload s ed n = Except.error err) :
    compute_acr s ed n = Except.error err := by
  unfold compute_acr
  rw [hch]

theorem compute_acr_ok (s : List Snapshot) (ed : Option Int) (n : Bool) {c a : ℚ}
    (hch : compute_chronic_workload s ed n = Except.ok c)
    (hac : compute_acute_workload s ed n = Except.ok a) :
    compute_acr s ed n = if c = 0 then Except.ok 0 else Except.ok (a / c) := by
  unfold compute_acr
  rw [hch, hac]

theorem exists_ok_ite (c a : ℚ) :
    ∃ q : ℚ, (if c = 0 then Except.ok 0 else Except.ok (a / c) : Except PyError ℚ) =
      Except.ok q := by
  by_cases h0 : c = 0
  · exact ⟨0, by rw [if_pos h0]⟩
  · exact ⟨a / c, by rw [if_neg h0]⟩

/-- Claim C1: for a non-empty snapshot list (with earliest parsed date
start and latest mx) and reference date the supplied end date
(defaulting to mx), when start is at most the reference date, the acute
computation returns the spec formula, the weighted sum over offsets 0..8 of the
workload map divided by the acute divisor of the span, and the chronic
computation returns the flat sum over offsets 0..27 divided by the
chronic divisor. -/
theorem C1_workload_formulas (s : List Snapshot) (ed : Option Int) (n : Bool)
    (start mx : Int)
    (hmin : (s.map Snapshot.date).min? = some start)
    (hmax : (s.map Snapshot.date).max? = some mx)
    (hle : start ≤ ed.getD mx) :
    compute_acute_workload s ed n =
      Except.ok (specAcuteFormula (_get_workloads_by_date s n) (ed.getD mx)
        (ed.getD mx - start)) ∧
    compute_chronic_workload s ed n =
      Except.ok (specChronicFormula (_get_workloads_by_date s n) (ed.getD mx)
        (ed.getD mx - start)) := by
  rw [compute_acute_workload_eq s ed n hmin hmax,
    compute_chronic_workload_eq s ed n hmin hmax,
    if_neg (not_lt.mpr hle), if_neg (not_lt.mpr hle)]
  constructor
  · have hnum : ((List.range ACUTE_LENGTH).map fun (offset : Nat) =>
        dictGet (_get_workloads_by_date s n) (ed.getD mx - (offset : Int)) 0
          * ACUTE_WEIGHTS.getD offset 0).sum =
      ∑ offset ∈ Finset.range 9, dictGet (_get_workloads_by_date s n)
          (ed.getD mx - (offset : Int)) 0 * specAcuteWeight offset := by
      rw [← list_range_map_sum]
      exact congrArg List.sum (List.map_congr_left fun i hi => by
        rw [acute_weights_eq_ramp i (List.mem_range.mp hi)])
    rw [hnum]
    rfl
  · have hnum : ((List.range CHRONIC_LENGTH).map fun (offset : Nat) =>
        dictGet (_get_workloads_by_date s n) (ed.getD mx - (offset : Int)) 0).sum =
      ∑ offset ∈ Finset.range 28, dictGet (_get_workloads_by_date s n)
          (ed.getD mx - (offset : Int)) 0 := by
      rw [← list_range_map_sum]
      rfl
    rw [hnum]
    rfl

/-- Witness for C1 at a single snapshot on day 0 with default end date. -/
theorem C1_witness :
    (([⟨0, 3, 5⟩] : List Snapshot).map Snapshot.date).min? = some 0 ∧
    (([⟨0, 3, 5⟩] : List Snapshot).map Snapshot.date).max? = some 0 ∧
    (0 : Int) ≤ (none : Option Int).getD 0 ∧
    (compute_acute_workload [⟨0, 3, 5⟩] none true =
      Except.ok (specAcuteFormula (_get_workloads_by_date [⟨0, 3, 5⟩] true)
        ((none : Option Int).getD 0) ((none : Option Int).getD 0 - 0)) ∧
     compute_chronic_workload [⟨0, 3, 5⟩] none true =
      Except.ok (specChronicFormula (_get_workloads_by_date [⟨0, 3, 5⟩] true)
        ((none : Option Int).getD 0) ((none : Option Int).getD 0 - 0))) :=
  ⟨by decide, by decide, by decide,
    C1_workload_formulas [⟨0, 3, 5⟩] none true 0 0 (by decide) (by decide) (by decide)⟩

/-- Claim C2: for a non-empty snapshot list (with earliest date start and
latest mx) and reference date the supplied end date (defaulting to mx),
each of the three computations raises the range error exactly when
start is strictly after the reference date, and returns a value in
every other case. -/
theorem C2_range_error_iff (s : List Snapshot) (ed : Option Int) (n : Bool)
    (start mx : Int)
    (hmin : (s.map Snapshot.date).min? = some start)
    (hmax : (s.map Snapshot.date).max? = some mx) :
    ((compute_acute_workload s ed n = Except.error PyError.rangeError ↔ ed.getD mx < start) ∧
     (compute_chronic_workload s ed n = Except.error PyError.rangeError ↔ ed.getD mx < start) ∧
     (compute_acr s ed n = Except.error PyError.rangeError ↔ ed.getD mx < start)) ∧
    (start ≤ ed.getD mx →
      (∃ q, compute_acute_workload s ed n = Except.ok q) ∧
      (∃ q, compute_chronic_workload s ed n = Except.ok q) ∧
      (∃ q, compute_acr s ed n = Except.ok q)) := by
  have hac := compute_acute_workload_eq s ed n hmin hmax
  have hch := compute_chronic_workload_eq s ed n hmin hmax
  by_cases hlt : ed.getD mx < start
  · rw [if_pos hlt] at hac hch
    have hacr : compute_acr s ed n = Except.error PyError.rangeError :=
      compute_acr_error s ed n hch
    refine ⟨⟨by simp [hac, hlt], by simp [hch, hlt], by simp [hacr, hlt]⟩, fun hle => ?_⟩
    exact absurd hlt (not_lt.mpr hle)
  · rw [if_neg hlt] at hac hch
    have hacr : ∃ q, compute_acr s ed n = Except.ok q := by
      rw [compute_acr_ok s ed n hch hac]
      exact exists_ok_ite _ _
    obtain ⟨q, hq⟩ := hacr
    refine ⟨⟨by simp [hac, hlt], by simp [hch, hlt], by simp [hq, hlt]⟩, fun _ => ?_⟩
    exact ⟨⟨_, hac⟩, ⟨_, hch⟩, ⟨q, hq⟩⟩

/-- Witness for C2 at a single snapshot on day 0 with supplied end date 1. -/
theorem C2_witness :
    (([⟨0, 2, 2⟩] : List Snapshot).map Snapshot.date).min? = some 0 ∧
    (([⟨0, 2, 2⟩] : List Snapshot).map Snapshot.date).max? = some 0 ∧
    (((compute_acute_workload [⟨0, 2, 2⟩] (some 1) true = Except.error PyError.rangeError ↔
        (some (1:Int)).getD 0 < 0) ∧
      (compute_chronic_workload [⟨0, 2, 2⟩] (some 1) true = Except.error PyError.rangeError ↔
        (some (1:Int)).getD 0 < 0) ∧
      (compute_acr [⟨0, 2, 2⟩] (some 1) true = Except.error PyError.rangeError ↔
        (some (1:Int)).getD 0 < 0)) ∧
     ((0:Int) ≤ (some (1:Int)).getD 0 →
      (∃ q, compute_acute_workload [⟨0, 2, 2⟩] (some 1) true = Except.ok q) ∧
      (∃ q, compute_chronic_workload [⟨0, 2, 2⟩] (some 1) true = Except.ok q) ∧
      (∃ q, compute_acr [⟨0, 2, 2⟩] (some 1) true = Except.ok q))) :=
  ⟨by decide, by decide,
    C2_range_error_iff [⟨0, 2, 2⟩] (some 1) true 0 0 (by decide) (by decide)⟩

/-- Claim C4: whenever the chronic computation succeeds, the ratio
computation does not fail: it returns 0.0 when the chronic workload is
0.0 (the defined semantics, with no division performed), and otherwise
returns the acute workload divided by the chronic workload. -/
theorem C4_acr_semantics (s : List Snapshot) (ed : Option Int) (n : Bool) (c : ℚ)
    (hc : compute_chronic_workload s ed n = Except.ok c) :
    (c = 0 → compute_acr s ed n = Except.ok 0) ∧
    (c ≠ 0 → ∃ a, compute_acute_workload s ed n = Except.ok a ∧
      compute_acr s ed n = Except.ok (a / c)) := by
  have hs : s ≠ [] := snapshots_ne_nil_of_chronic_ok hc
  obtain ⟨start, mx, hmin, hmax⟩ := exists_min?_max?_of_ne_nil hs
  have hch := compute_chronic_workload_eq s ed n hmin hmax
  have hac := compute_acute_workload_eq s ed n hmin hmax
  by_cases hlt : ed.getD mx < start
  · rw [if_pos hlt] at hch
    rw [hch] at hc
    exact absurd hc (by simp)
  · rw [if_neg hlt] at hac
    constructor
    · intro h0
      rw [compute_acr_ok s ed n hc hac, if_pos h0]
    · intro h0
      exact ⟨_, hac, by rw [compute_acr_ok s ed n hc hac, if_neg h0]⟩

/-- Witness for C4 at a single snapshot on day 0 and end date 100, where
the chronic workload evaluates to 0. -/
theorem C4_witness :
    compute_chronic_workload [⟨0, 1, 1⟩] (some 100) true = Except.ok 0 ∧
    (((0:ℚ) = 0 → compute_acr [⟨0, 1, 1⟩] (some 100) true = Except.ok 0) ∧
     ((0:ℚ) ≠ 0 → ∃ a, compute_acute_workload [⟨0, 1, 1⟩] (some 100) true = Except.ok a ∧
       compute_acr [⟨0, 1, 1⟩] (some 100) true = Except.ok (a / 0))) :=
  ⟨chronic_far_future_ok_zero [⟨0, 1, 1⟩] true 100 (by decide) (by decide),
   C4_acr_semantics [⟨0, 1, 1⟩] (some 100) true 0
     (chronic_far_future_ok_zero [⟨0, 1, 1⟩] true 100 (by decide) (by decide))⟩

/-- Counterexample to claim C5 as stated: one snapshot on day 100 and
reference date 50, which predates the only workload-map key by more
than 8 days; the computation raises the range error rather than
returning 0.0. -/
theorem C5_counterexample :
    (∀ d ∈ ([⟨100, 1, 1⟩] : List Snapshot).map Snapshot.date, (50 : Int) + 8 < d) ∧
    compute_acute_workload [⟨100, 1, 1⟩] (some 50) true = Except.error PyError.rangeError ∧
    compute_acute_workload [⟨100, 1, 1⟩] (some 50) true ≠ Except.ok 0 :=
  ⟨by decide, by decide, by decide⟩

/-- Claim C5 (amended): when the reference date is later than every key of
the workload map by more than 8 days, every term of the acute sum is 0
and the acute computation returns 0.0, not an error.  (As stated the
claim is false: a reference date that predates every key also predates
the earliest snapshot date, so the computation raises the range error
instead; see the counterexample.) -/
theorem C5_amended_far_future_zero (s : List Snapshot) (n : Bool) (e : Int)
    (hs : s ≠ [])
    (hfar : ∀ d ∈ s.map Snapshot.date, d + 8 < e) :
    (∀ offset : Nat, offset < 9 →
      dictGet (_get_workloads_by_date s n) (e - (offset : Int)) 0 = 0) ∧
    compute_acute_workload s (some e) n = Except.ok 0 :=
  ⟨fun offset hoff => dictGet_workloads_far hfar offset hoff,
   acute_far_future_ok_zero s n e hs hfar⟩

/-- Witness for C5 (amended) at a single snapshot on day 0 and reference
date 9. -/
theorem C5_witness :
    ([⟨0, 1, 1⟩] : List Snapshot) ≠ [] ∧
    (∀ d ∈ ([⟨0, 1, 1⟩] : List Snapshot).map Snapshot.date, d + 8 < (9 : Int)) ∧
    ((∀ offset : Nat, offset < 9 →
        dictGet (_get_workloads_by_date [⟨0, 1, 1⟩] true) ((9 : Int) - (offset : Int)) 0 = 0) ∧
     compute_acute_workload [⟨0, 1, 1⟩] (some 9) true = Except.ok 0) :=
  ⟨by decide, by decide,
   C5_amended_far_future_zero [⟨0, 1, 1⟩] true 9 (by decide) (by decide)⟩

/-- Claim C6: with a supplied end date later than every snapshot date by 9
days or more, no snapshot date falls in the 9-day window ending at the
end date, and the acute computation returns 0.0 without raising. -/
theorem C6_future_end_zero (s : List Snapshot) (n : Bool) (e : Int)
    (hs : s ≠ [])
    (hfar : ∀ d ∈ s.map Snapshot.date, d + 9 ≤ e) :
    compute_acute_workload s (some e) n = Except.ok 0 :=
  acute_far_future_ok_zero s n e hs (fun d hd => by have := hfar d hd; omega)

/-- Witness for C6 at a single snapshot on day 3 and end date 20. -/
theorem C6_witness :
    ([⟨3, 2, 4⟩] : List Snapshot) ≠ [] ∧
    (∀ d ∈ ([⟨3, 2, 4⟩] : List Snapshot).map Snapshot.date, d + 9 ≤ (20 : Int)) ∧
    compute_acute_workload [⟨3, 2, 4⟩] (some 20) true = Except.ok 0 :=
  ⟨by decide, by decide, C6_future_end_zero [⟨3, 2, 4⟩] true 20 (by decide) (by decide)⟩

end PulseThrow
